import Mathlib

/-
Verification of the garbage-collection engine of the FluidFramework
container runtime.  The GC implementation itself (the GarbageCollector
orchestrator, the per-node unreferenced-state machine and the summary
state tracker) is not part of the sources available here; only its test
suites are.  Following the specification (spec.md, sections 3, 4.1-4.4,
6 and 8) and the behavior pinned down by the unit tests in
packages/runtime/container-runtime/src/test/gc/garbageCollection.spec.ts,
the engine is modelled below as pure functions over explicit state.
Times are naturals (milliseconds), node ids are path strings, and maps
are association lists.
-/

namespace FluidGC

abbrev NodeId := String

/-- Modelled from the spec: lookup in an association list keyed by node id
(the model of the string-keyed maps used throughout the GC engine). -/
def alookup {α : Type} : List (NodeId × α) → NodeId → Option α
  | [], _ => none
  | p :: rest, n => if p.1 = n then some p.2 else alookup rest n

/-- Modelled from the spec: the reference graph `{nodeId -> outboundRoutes[]}`
rebuilt fresh from runtime-reported data on every run (spec section 3,
"ReferenceGraph"; the shape of `IGarbageCollectionData.gcNodes`). -/
structure GCGraph where
  gcNodes : List (NodeId × List NodeId)
deriving Repr, DecidableEq

/-- Modelled from the spec: the outbound routes of a node.  All entries for
the key are merged, so that concatenating two graphs unions their edges. -/
def routesOf (g : GCGraph) (n : NodeId) : List NodeId :=
  (g.gcNodes.filter (fun p => decide (p.1 = n))).flatMap Prod.snd

def graphKeys (g : GCGraph) : List NodeId :=
  g.gcNodes.map Prod.fst

/-- Modelled from the spec: one expansion step of the mark traversal -
the current front plus every outbound route of its members (section 4.3). -/
def expandOnce (g : GCGraph) (s : List NodeId) : List NodeId :=
  (s ++ s.flatMap (routesOf g)).dedup

/-- Modelled from the spec: iterated expansion with explicit fuel. -/
def expandMany (g : GCGraph) : Nat → List NodeId → List NodeId
  | 0, s => s
  | k + 1, s => expandMany g k (expandOnce g s)

/-- Modelled from the spec: the mark / reachability algorithm of section
4.3 - the set of nodes reachable from the given start nodes, computed by
saturating the expansion (`|gcNodes|` rounds reach a fixed point on any
graph because every expansion follows recorded outbound routes). -/
def reachableFrom (g : GCGraph) (starts : List NodeId) : List NodeId :=
  expandMany g g.gcNodes.length starts

/-- Modelled from the spec: GC configuration thresholds of section 4.2. -/
structure GCConfig where
  inactiveTimeoutMs : Nat
  sweepTimeoutMs : Nat
  sweepGracePeriodMs : Nat
  sweepEnabled : Bool
deriving Repr, DecidableEq

/-- Modelled from the spec: the phase of an unreferenced node, section 4.2
(`UnreferencedState` in the tests; absence of a tracker means the node is
referenced). -/
inductive UnreferencedState
  | Unreferenced
  | Inactive
  | TombstoneReady
  | SweepReady
deriving Repr, DecidableEq

/-- Rank of a phase in the advance order of section 4.2. -/
def stateRank : UnreferencedState → Nat
  | .Unreferenced => 0
  | .Inactive => 1
  | .TombstoneReady => 2
  | .SweepReady => 3

/-- Modelled from the spec: phase transitions are recomputed
deterministically from the stored timestamp on every run (section 4.2):
SweepReady once elapsed is at least sweepTimeoutMs + sweepGracePeriodMs,
TombstoneReady once at least sweepTimeoutMs, Inactive once at least
inactiveTimeoutMs, otherwise still Unreferenced. -/
def computeState (cfg : GCConfig) (elapsed : Nat) : UnreferencedState :=
  if cfg.sweepTimeoutMs + cfg.sweepGracePeriodMs ≤ elapsed then .SweepReady
  else if cfg.sweepTimeoutMs ≤ elapsed then .TombstoneReady
  else if cfg.inactiveTimeoutMs ≤ elapsed then .Inactive
  else .Unreferenced

/-- Modelled from the spec: whether `nodeUpdated` reported a Loaded or a
Changed usage (section 4.1). -/
inductive GCUsageType
  | Loaded
  | Changed
deriving Repr, DecidableEq

/-- Modelled from the spec: a usage telemetry event for an unreferenced
node past a timeout (the InactiveObject / TombstoneReadyObject /
SweepReadyObject Loaded and Changed events of the tests). -/
structure UsageEvent where
  nodeId : NodeId
  usage : GCUsageType
  state : UnreferencedState
deriving Repr, DecidableEq

def eventKey (e : UsageEvent) : NodeId × GCUsageType × UnreferencedState :=
  (e.nodeId, e.usage, e.state)

/-- Modelled from the spec: the gcUnknownOutboundReferences error record -
a source node together with the outbound routes that were never reported
through `addedOutboundReference` (test scenario 6 of "References between
summaries"). -/
structure UnknownRefEvent where
  srcId : NodeId
  routes : List NodeId
deriving Repr, DecidableEq

/-- Modelled from the spec: per-node GC data persisted in the summary
(`IGarbageCollectionNodeData`): outbound routes plus the optional
unreferenced timestamp. -/
structure GCNodeData where
  outboundRoutes : List NodeId
  unreferencedTimestampMs : Option Nat
deriving Repr, DecidableEq

/-- Modelled from the spec: the persisted GC summary content of section 6 -
the node table, the tombstone set and the deleted set. -/
structure GCSummaryData where
  gcState : List (NodeId × GCNodeData)
  tombstones : List NodeId
  deletedNodes : List NodeId
deriving Repr, DecidableEq

/-- Modelled from the spec: the state owned by the GarbageCollector
orchestrator (section 4.1): trackers map each unreferenced node to its
unreferencedTimestampMs; tombstones and deletedNodes are the enforcement
sets; newReferences collects `addedOutboundReference` reports since the
last run; previousGraph is the graph of info from the last completed run;
pendingEvents / loggedEvents / unknownRefEvents model telemetry. -/
@[ext]
structure GCState where
  trackers : List (NodeId × Nat)
  tombstones : List NodeId
  deletedNodes : List NodeId
  newReferences : List (NodeId × NodeId)
  previousGraph : Option GCGraph
  pendingEvents : List UsageEvent
  loggedEvents : List UsageEvent
  unknownRefEvents : List UnknownRefEvent
deriving Repr, DecidableEq

def initialGCState : GCState :=
  { trackers := [], tombstones := [], deletedNodes := [], newReferences := [],
    previousGraph := none, pendingEvents := [], loggedEvents := [],
    unknownRefEvents := [] }

/-- Modelled from the spec: `addedOutboundReference(fromId, toId)` records
an edge created outside a GC run; it has no effect on reachability until
the next `collectGarbage()` (section 4.1). -/
def addedOutboundReference (s : GCState) (fromId toId : NodeId) : GCState :=
  { s with newReferences := s.newReferences ++ [(fromId, toId)] }

/-- Modelled from the spec: `nodeUpdated(nodeId, reason, timestampMs)`.
If the node is tracked unreferenced at or beyond Inactive, a usage event
is queued; it is emitted (or dropped, if the node is revived) by the next
`collectGarbage()` run (section 4.1 and the "generates only revived event"
test). -/
def nodeUpdated (cfg : GCConfig) (s : GCState) (nodeId : NodeId)
    (usage : GCUsageType) (now : Nat) : GCState :=
  match alookup s.trackers nodeId with
  | none => s
  | some ts =>
    let st := computeState cfg (now - ts)
    if st = .Unreferenced then s
    else { s with pendingEvents := s.pendingEvents ++ [⟨nodeId, usage, st⟩] }

/-- Modelled from the spec: union of two reference graphs (edge-wise). -/
def supersetGraph (pg g : GCGraph) (newRefs : List (NodeId × NodeId)) : GCGraph :=
  ⟨pg.gcNodes ++ g.gcNodes ++ newRefs.map (fun p => (p.1, [p.2]))⟩

/-- Modelled from the spec: the nodes referenced at any time since the last
run - computed by running the mark algorithm over the union of the previous
graph, the current graph and the explicitly reported new references,
starting from the root and from every new-reference target (section 4.1
step 4; "References between summaries" tests). -/
def referencedSinceLastRun (g : GCGraph) (s : GCState) : List NodeId :=
  match s.previousGraph with
  | none => []
  | some pg =>
    if s.newReferences = [] then []
    else
      reachableFrom (supersetGraph pg g s.newReferences)
        ("/" :: s.newReferences.map Prod.snd)

/-- Modelled from the spec: routes to data stores are the trackable ones -
an absolute path with a single separator (the tests' getNodeType treats
exactly the two-segment paths as data stores). -/
def isDataStoreRoute (r : NodeId) : Bool :=
  decide (r.data.countP (fun c => decide (c = '/')) = 1 ∧ r.data.head? = some '/')

/-- Modelled from the spec: the explicitly reported routes out of a node
since the last run. -/
def explicitRoutesOf (newRefs : List (NodeId × NodeId)) (n : NodeId) : List NodeId :=
  (newRefs.filter (fun p => decide (p.1 = n))).map Prod.snd

/-- Modelled from the spec: the outbound data-store routes of a node in the
current graph that are neither present in the previous graph nor reported
through `addedOutboundReference` - the content of a
gcUnknownOutboundReferences error (scenario 6 test). -/
def missingExplicitRoutes (pg g : GCGraph) (newRefs : List (NodeId × NodeId))
    (n : NodeId) : List NodeId :=
  (routesOf g n).filter (fun r =>
    isDataStoreRoute r && decide (r ∉ routesOf pg n)
      && decide (r ∉ explicitRoutesOf newRefs n))

/-- Modelled from the spec: one gcUnknownOutboundReferences error per source
node whose current outbound routes contain unreported new data-store
routes. -/
def detectUnknownRefs (pg g : GCGraph)
    (newRefs : List (NodeId × NodeId)) : List UnknownRefEvent :=
  (graphKeys g).foldr
    (fun n acc =>
      let m := missingExplicitRoutes pg g newRefs n
      if m = [] then acc else ⟨n, m⟩ :: acc)
    []

/-- Modelled from the spec: steps 3-5 of `collectGarbage` (section 4.1) -
for each node of the current graph: referenced or already deleted nodes
carry no tracker; an unreferenced node keeps its tracker timestamp unless
a reference to it was observed since the last run (then it is re-stamped
to now) or it had no tracker yet (stamped now). -/
def markFun (cfg : GCConfig) (g : GCGraph) (now : Nat) (s : GCState)
    (n : NodeId) : Option (NodeId × Nat) :=
  if n ∈ reachableFrom g ["/"] ∨ n ∈ s.deletedNodes then none
  else
    match alookup s.trackers n with
    | some ts =>
      if n ∈ referencedSinceLastRun g s then some (n, now) else some (n, ts)
    | none => some (n, now)

def markPhase (cfg : GCConfig) (g : GCGraph) (now : Nat) (s : GCState) :
    List (NodeId × Nat) :=
  (graphKeys g).filterMap (markFun cfg g now s)

/-- Modelled from the spec: the tracked nodes whose elapsed unreferenced
time has reached sweepTimeoutMs + sweepGracePeriodMs (section 4.2). -/
def sweepReadyOf (cfg : GCConfig) (now : Nat)
    (trackers : List (NodeId × Nat)) : List NodeId :=
  (trackers.filter
    (fun p => decide (cfg.sweepTimeoutMs + cfg.sweepGracePeriodMs ≤ now - p.2))).map
    Prod.fst

/-- Modelled from the spec: flushing the queued usage events during a run -
an event is emitted when its node is still tracked unreferenced and no
event with the same (node, usage, phase) key was emitted before; events
are emitted at most once per key ("generates events once per node"). -/
def flushEvents : List UsageEvent → List (NodeId × Nat) → List UsageEvent →
    List UsageEvent
  | [], _, logged => logged
  | e :: rest, trackers, logged =>
    if (alookup trackers e.nodeId).isSome = true
        ∧ ∀ l ∈ logged, eventKey l ≠ eventKey e then
      flushEvents rest trackers (logged ++ [e])
    else
      flushEvents rest trackers logged

/-- Result of a `collectGarbage` run: the new orchestrator state and the
node ids that were passed to the runtime's `deleteSweepReadyNodes`. -/
structure GCRunResult where
  state : GCState
  sweptNodes : List NodeId
deriving Repr, DecidableEq

/-- Modelled from the spec: `collectGarbage(options)` (section 4.1): run
the mark phase and rebuild the trackers, sweep the sweep-ready nodes when
sweep is enabled (moving them to the deleted set and dropping their
trackers), recompute the tombstone set, log unknown outbound references
detected against the previous graph, flush queued usage events, clear the
observed-reference hints and record the graph of this run. -/
def collectGarbage (cfg : GCConfig) (g : GCGraph) (now : Nat) (s : GCState) :
    GCRunResult :=
  let base := markPhase cfg g now s
  let swept := if cfg.sweepEnabled then sweepReadyOf cfg now base else []
  let finalTrackers := base.filter (fun p => decide (p.1 ∉ swept))
  let newUnknown :=
    match s.previousGraph with
    | some pg => detectUnknownRefs pg g s.newReferences
    | none => []
  { state :=
      { trackers := finalTrackers
        tombstones :=
          (finalTrackers.filter
            (fun p => decide (cfg.sweepTimeoutMs ≤ now - p.2))).map Prod.fst
        deletedNodes := s.deletedNodes ++ swept
        newReferences := []
        previousGraph := some g
        pendingEvents := []
        loggedEvents := flushEvents s.pendingEvents finalTrackers s.loggedEvents
        unknownRefEvents := s.unknownRefEvents ++ newUnknown }
    sweptNodes := swept }

/-- Modelled from the spec: accessing a deleted node always throws
(section 4.1, `nodeUpdated` / tombstone enforcement surface). -/
def accessNode (s : GCState) (n : NodeId) : Except String Unit :=
  if n ∈ s.deletedNodes then .error "object is deleted" else .ok ()

/-- Modelled from the spec: the phase of a node as observable at a given
time - `none` when the node carries no tracker (it is referenced). -/
def phaseOf (cfg : GCConfig) (now : Nat) (s : GCState) (n : NodeId) :
    Option UnreferencedState :=
  (alookup s.trackers n).map (fun ts => computeState cfg (now - ts))

/-- Modelled from the spec: the GC summary fragment produced by
`summarize` - node table from the graph of the latest run plus the
tracker timestamps, and the tombstone / deleted sets (section 6). -/
def summaryDataOf (s : GCState) : GCSummaryData :=
  let g := (s.previousGraph).getD ⟨[]⟩
  { gcState :=
      (graphKeys g).map (fun n => (n, ⟨routesOf g n, alookup s.trackers n⟩))
    tombstones := s.tombstones
    deletedNodes := s.deletedNodes }

/-- Modelled from the spec: the GC schema / feature version written in the
summary metadata (`stableGCVersion`). -/
def currentGCVersion : Nat := 3

/-- Modelled from the spec: a base snapshot carrying persisted GC data and
the GC schema version it was written with. -/
structure GCSnapshot where
  data : GCSummaryData
  gcVersion : Nat
deriving Repr, DecidableEq

/-- Modelled from the spec: the base snapshot data as read at load time -
each part is optional because parts are discarded on version change. -/
structure BaseSnapshotData where
  gcState : Option (List (NodeId × GCNodeData))
  tombstones : Option (List NodeId)
  deletedNodes : Option (List NodeId)
deriving Repr, DecidableEq

/-- Modelled from the spec: reading the base snapshot - if the GC schema
version differs from the current version, the node table and the tombstone
set are discarded while the deleted set is kept (section 4.1,
initializeBaseState; "discards GC state and tombstone state in base
snapshot when GC version changes" test). -/
def readBaseSnapshotData (snap : GCSnapshot) : BaseSnapshotData :=
  if snap.gcVersion = currentGCVersion then
    ⟨some snap.data.gcState, some snap.data.tombstones, some snap.data.deletedNodes⟩
  else
    ⟨none, none, some snap.data.deletedNodes⟩

/-- Modelled from the spec: rehydrating a fresh orchestrator from the base
snapshot data (section 4.1, initializeBaseState): trackers come from the
node-table timestamps, the tombstone and deleted sets are loaded directly,
missing parts default to empty. -/
def loadBaseState (bsd : BaseSnapshotData) : GCState :=
  { trackers :=
      (bsd.gcState.getD []).filterMap
        (fun p => (p.2.unreferencedTimestampMs).map (fun ts => (p.1, ts)))
    tombstones := (bsd.tombstones).getD []
    deletedNodes := (bsd.deletedNodes).getD []
    newReferences := []
    previousGraph :=
      some ⟨(bsd.gcState.getD []).map (fun p => (p.1, p.2.outboundRoutes))⟩
    pendingEvents := []
    loggedEvents := []
    unknownRefEvents := [] }

/-- Modelled from the spec: the timestamp recorded for a node in a
persisted node table. -/
def tableTimestamp (t : List (NodeId × GCNodeData)) (n : NodeId) : Option Nat :=
  (alookup t n).bind (fun nd => nd.unreferencedTimestampMs)

/-- Modelled from the spec: the per-blob reuse decision state of the
GCSummaryStateTracker (section 4.4) - the summary data of the latest
acknowledged summary. -/
structure GCSummaryStateTracker where
  latestSummaryData : Option GCSummaryData
deriving Repr, DecidableEq

/-- Result of `summarize`: either a handle referring to the previous
summary's blobs, or a full tree of blobs. -/
inductive GCSummaryResult
  | handle
  | tree (data : GCSummaryData)
deriving Repr, DecidableEq

/-- Modelled from the spec: `summarize(fullTree, trackState)` reuses the
prior summary as a handle when nothing changed since the latest
acknowledged summary and fullTree is false (sections 4.1 and 4.4). -/
def summarize (fullTree trackState : Bool) (tracker : GCSummaryStateTracker)
    (current : GCSummaryData) : GCSummaryResult :=
  if fullTree = false ∧ trackState = true
      ∧ tracker.latestSummaryData = some current then
    .handle
  else
    .tree current

/-- Modelled from the spec: `refreshLatestSummary(ackInfo)` updates the
acknowledged-summary baseline used for incremental diffing. -/
def refreshLatestSummary (pending : GCSummaryData)
    (_tracker : GCSummaryStateTracker) : GCSummaryStateTracker :=
  ⟨some pending⟩

/-- Modelled from the spec: the observable operations a runtime can drive
the orchestrator with between loads. -/
inductive GCOp
  | update (nodeId : NodeId) (usage : GCUsageType) (now : Nat)
  | addRef (fromId toId : NodeId)
  | collect (g : GCGraph) (now : Nat)

def applyOp (cfg : GCConfig) (s : GCState) : GCOp → GCState
  | .update n u now => nodeUpdated cfg s n u now
  | .addRef a b => addedOutboundReference s a b
  | .collect g now => (collectGarbage cfg g now s).state

def applyOps (cfg : GCConfig) (s : GCState) : List GCOp → GCState
  | [] => s
  | op :: rest => applyOps cfg (applyOp cfg s op) rest

/-- Count of emitted usage events with a given key. -/
def countKey (l : List UsageEvent) (k : NodeId × GCUsageType × UnreferencedState) :
    Nat :=
  l.countP (fun e => decide (eventKey e = k))

/-- Keys of an association list are pairwise distinct. -/
def keysNodup {α : Type} (l : List (NodeId × α)) : Prop :=
  (l.map Prod.fst).Nodup

end FluidGC

namespace FluidGC

/-! Basic lemmas about association-list lookup. -/

theorem alookup_eq_none_iff {α : Type} (l : List (NodeId × α)) (n : NodeId) :
    alookup l n = none ↔ ∀ p ∈ l, p.1 ≠ n := by
  induction l with
  | nil => simp [alookup]
  | cons p rest ih =>
    by_cases h : p.1 = n
    · simp [alookup, h]
    · simp [alookup, h, ih]

theorem mem_of_alookup_eq_some {α : Type} {l : List (NodeId × α)} {n : NodeId}
    {v : α} (h : alookup l n = some v) : (n, v) ∈ l := by
  induction l with
  | nil => simp [alookup] at h
  | cons p rest ih =>
    obtain ⟨a, b⟩ := p
    by_cases hp : a = n
    · subst hp
      have h2 : b = v := by simpa [alookup] using h
      subst h2
      exact List.mem_cons_self _ _
    · have h2 : alookup rest n = some v := by simpa [alookup, hp] using h
      exact List.mem_cons_of_mem _ (ih h2)

theorem key_mem_of_alookup_eq_some {α : Type} {l : List (NodeId × α)}
    {n : NodeId} {v : α} (h : alookup l n = some v) : n ∈ l.map Prod.fst := by
  have := mem_of_alookup_eq_some h
  exact List.mem_map.mpr ⟨(n, v), this, rfl⟩

theorem alookup_eq_none_of_not_mem {α : Type} {l : List (NodeId × α)}
    {n : NodeId} (h : n ∉ l.map Prod.fst) : alookup l n = none := by
  rw [alookup_eq_none_iff]
  intro p hp hpn
  exact h (List.mem_map.mpr ⟨p, hp, hpn⟩)

/-! Lookup through `filterMap` over a key list. -/

theorem keys_filterMap_sublist {α : Type} (f : NodeId → Option (NodeId × α))
    (hf : ∀ k p, f k = some p → p.1 = k) (keys : List NodeId) :
    ((keys.filterMap f).map Prod.fst).Sublist keys := by
  induction keys with
  | nil => simp
  | cons k rest ih =>
    cases hfk : f k with
    | none => simp only [List.filterMap_cons, hfk]; exact ih.cons k
    | some p =>
      simp only [List.filterMap_cons, hfk, List.map_cons]
      rw [hf k p hfk]
      exact ih.cons₂ k

theorem keysNodup_filterMap {α : Type} {f : NodeId → Option (NodeId × α)}
    (hf : ∀ k p, f k = some p → p.1 = k) {keys : List NodeId}
    (hnd : keys.Nodup) : keysNodup (keys.filterMap f) :=
  (keys_filterMap_sublist f hf keys).nodup hnd

theorem alookup_filterMap_of_not_mem {α : Type} {f : NodeId → Option (NodeId × α)}
    (hf : ∀ k p, f k = some p → p.1 = k) {keys : List NodeId} {n : NodeId}
    (h : n ∉ keys) : alookup (keys.filterMap f) n = none := by
  apply alookup_eq_none_of_not_mem
  intro hmem
  rcases List.mem_map.mp hmem with ⟨p, hp, hpn⟩
  rcases List.mem_filterMap.mp hp with ⟨k, hk, hfk⟩
  have hkeq : n = k := by rw [← hpn]; exact hf k p hfk
  exact h (by rw [hkeq]; exact hk)

theorem alookup_filterMap_of_mem {α : Type} {f : NodeId → Option (NodeId × α)}
    (hf : ∀ k p, f k = some p → p.1 = k) {keys : List NodeId} {n : NodeId}
    (hnd : keys.Nodup) (hmem : n ∈ keys) :
    alookup (keys.filterMap f) n = (f n).map Prod.snd := by
  induction keys with
  | nil => simp at hmem
  | cons k rest ih =>
    rcases List.nodup_cons.mp hnd with ⟨hk, hndr⟩
    by_cases hkn : k = n
    · subst hkn
      cases hfk : f k with
      | none =>
        simp only [List.filterMap_cons, hfk]
        rw [alookup_filterMap_of_not_mem hf hk]
        simp
      | some p =>
        have hp1 : p.1 = k := hf k p hfk
        simp only [List.filterMap_cons, hfk, alookup, hp1, if_pos]
        simp
    · have hmemr : n ∈ rest := by
        cases List.mem_cons.mp hmem with
        | inl h => exact absurd h.symm hkn
        | inr h => exact h
      cases hfk : f k with
      | none => simp only [List.filterMap_cons, hfk]; exact ih hndr hmemr
      | some p =>
        have hp1 : p.1 = k := hf k p hfk
        simp only [List.filterMap_cons, hfk, alookup, hp1, hkn, if_neg,
          not_false_iff]
        exact ih hndr hmemr

/-! Lookup through `filter`. -/

theorem alookup_filter_of_some {α : Type} {l : List (NodeId × α)} {n : NodeId}
    {v : α} {q : NodeId × α → Bool} (h : alookup l n = some v)
    (hq : q (n, v) = true) : alookup (l.filter q) n = some v := by
  induction l with
  | nil => simp [alookup] at h
  | cons p rest ih =>
    by_cases hp : p.1 = n
    · simp only [alookup, hp, if_pos] at h
      have hpv : p = (n, v) := by cases p; simp_all
      subst hpv
      simp [List.filter_cons, hq, alookup]
    · simp only [alookup, hp, if_neg, not_false_iff] at h
      cases hqp : q p with
      | false => simp only [List.filter_cons, hqp]; exact ih h
      | true =>
        simp only [List.filter_cons, hqp, if_pos, alookup, hp, if_neg,
          not_false_iff]
        exact ih h

theorem alookup_filter_none {α : Type} {l : List (NodeId × α)} {n : NodeId}
    {q : NodeId × α → Bool} (h : alookup l n = none) :
    alookup (l.filter q) n = none := by
  rw [alookup_eq_none_iff] at h ⊢
  intro p hp
  exact h p (List.mem_of_mem_filter hp)

theorem alookup_of_filter_some {α : Type} {l : List (NodeId × α)} {n : NodeId}
    {v : α} {q : NodeId × α → Bool} (hnd : keysNodup l)
    (h : alookup (l.filter q) n = some v) : alookup l n = some v := by
  induction l with
  | nil => simp [alookup] at h
  | cons p rest ih =>
    rcases List.nodup_cons.mp hnd with ⟨hk, hndr⟩
    by_cases hp : p.1 = n
    · cases hqp : q p with
      | true =>
        simp only [List.filter_cons, hqp, if_pos, alookup, hp, if_pos] at h
        simp [alookup, hp, h]
      | false =>
        exfalso
        simp only [List.filter_cons, hqp] at h
        have := key_mem_of_alookup_eq_some h
        have hsub : ((rest.filter q).map Prod.fst).Sublist (rest.map Prod.fst) :=
          (List.filter_sublist rest).map Prod.fst
        rw [hp] at hk
        exact hk (hsub.subset this)
    · cases hqp : q p with
      | true =>
        simp only [List.filter_cons, hqp, if_pos, alookup, hp, if_neg,
          not_false_iff] at h
        simp only [alookup, hp, if_neg, not_false_iff]
        exact ih hndr h
      | false =>
        simp only [List.filter_cons, hqp] at h
        simp only [alookup, hp, if_neg, not_false_iff]
        exact ih hndr h

end FluidGC

namespace FluidGC

/-! Reachability lemmas. -/

theorem subset_expandOnce (g : GCGraph) (s : List NodeId) :
    s ⊆ expandOnce g s := by
  intro x hx
  simp only [expandOnce, List.mem_dedup, List.mem_append]
  exact Or.inl hx

theorem subset_expandMany (g : GCGraph) (k : Nat) :
    ∀ s : List NodeId, s ⊆ expandMany g k s := by
  induction k with
  | zero => intro s; simp [expandMany]
  | succ k ih =>
    intro s x hx
    exact ih (expandOnce g s) (subset_expandOnce g s hx)

theorem subset_reachableFrom (g : GCGraph) (starts : List NodeId) :
    starts ⊆ reachableFrom g starts :=
  subset_expandMany g g.gcNodes.length starts

/-! Unknown-reference detection lemmas. -/

theorem missingExplicitRoutes_self (g : GCGraph)
    (newRefs : List (NodeId × NodeId)) (n : NodeId) :
    missingExplicitRoutes g g newRefs n = [] := by
  unfold missingExplicitRoutes
  apply List.filter_eq_nil_iff.mpr
  intro r hr
  have hdec : decide (r ∉ routesOf g n) = false := by simp [hr]
  simp [hdec]

theorem detect_foldr_eq_nil (pg g : GCGraph) (newRefs : List (NodeId × NodeId))
    (hall : ∀ n, missingExplicitRoutes pg g newRefs n = [])
    (l : List NodeId) :
    (l.foldr
      (fun n acc =>
        let m := missingExplicitRoutes pg g newRefs n
        if m = [] then acc else UnknownRefEvent.mk n m :: acc)
      ([] : List UnknownRefEvent)) = [] := by
  induction l with
  | nil => rfl
  | cons k rest ih => simp [List.foldr_cons, hall k, ih]

theorem detectUnknownRefs_self (g : GCGraph)
    (newRefs : List (NodeId × NodeId)) :
    detectUnknownRefs g g newRefs = [] :=
  detect_foldr_eq_nil g g newRefs (missingExplicitRoutes_self g newRefs) _

theorem mem_detect_foldr (pg g : GCGraph) (newRefs : List (NodeId × NodeId))
    {n : NodeId} (l : List NodeId) (hn : n ∈ l)
    (hne : missingExplicitRoutes pg g newRefs n ≠ []) :
    (⟨n, missingExplicitRoutes pg g newRefs n⟩ : UnknownRefEvent) ∈
      l.foldr
        (fun k acc =>
          let m := missingExplicitRoutes pg g newRefs k
          if m = [] then acc else UnknownRefEvent.mk k m :: acc)
        ([] : List UnknownRefEvent) := by
  induction l with
  | nil => simp at hn
  | cons k rest ih =>
    simp only [List.foldr_cons]
    by_cases hk : k = n
    · subst hk
      simp only [if_neg hne]
      exact List.mem_cons_self _ _
    · have hnr : n ∈ rest := by
        cases List.mem_cons.mp hn with
        | inl h => exact absurd h.symm hk
        | inr h => exact h
      by_cases hm : missingExplicitRoutes pg g newRefs k = []
      · simpa [hm] using ih hnr
      · simp only [if_neg hm]
        exact List.mem_cons_of_mem _ (ih hnr)

theorem mem_detectUnknownRefs (pg g : GCGraph)
    (newRefs : List (NodeId × NodeId)) {n : NodeId} (hn : n ∈ graphKeys g)
    (hne : missingExplicitRoutes pg g newRefs n ≠ []) :
    (⟨n, missingExplicitRoutes pg g newRefs n⟩ : UnknownRefEvent) ∈
      detectUnknownRefs pg g newRefs :=
  mem_detect_foldr pg g newRefs (graphKeys g) hn hne

/-! Phase monotonicity. -/

theorem stateRank_computeState_mono (cfg : GCConfig) {e₁ e₂ : Nat}
    (h : e₁ ≤ e₂) :
    stateRank (computeState cfg e₁) ≤ stateRank (computeState cfg e₂) := by
  unfold computeState
  split_ifs <;> simp [stateRank] <;> omega

/-! Event-flushing lemmas. -/

theorem flushEvents_countKey_le (p : List UsageEvent)
    (t : List (NodeId × Nat)) (logged : List UsageEvent)
    (hinv : ∀ k, countKey logged k ≤ 1) :
    ∀ k, countKey (flushEvents p t logged) k ≤ 1 := by
  induction p generalizing logged with
  | nil => intro k; simpa [flushEvents] using hinv k
  | cons e rest ih =>
    have step : flushEvents (e :: rest) t logged =
        if (alookup t e.nodeId).isSome = true
            ∧ ∀ l ∈ logged, eventKey l ≠ eventKey e then
          flushEvents rest t (logged ++ [e])
        else flushEvents rest t logged := rfl
    rw [step]
    by_cases hc : (alookup t e.nodeId).isSome = true
        ∧ ∀ l ∈ logged, eventKey l ≠ eventKey e
    · rw [if_pos hc]
      apply ih
      intro k
      have happ : countKey (logged ++ [e]) k = countKey logged k + countKey [e] k := by
        simp [countKey, List.countP_append]
      by_cases hk : eventKey e = k
      · have hzero : countKey logged k = 0 := by
          apply List.countP_eq_zero.mpr
          intro l hl
          simp only [decide_eq_true_eq]
          rw [← hk]
          exact hc.2 l hl
        have hone : countKey [e] k ≤ 1 := by
          simp [countKey, List.countP_cons, List.countP_nil, hk]
        rw [happ, hzero]
        simpa using hone
      · have hzero : countKey [e] k = 0 := by
          simp [countKey, List.countP_cons, List.countP_nil, hk]
        rw [happ, hzero]
        simpa using hinv k
    · rw [if_neg hc]
      exact ih logged hinv

end FluidGC

namespace FluidGC

/-! Telemetry bookkeeping through operations. -/

theorem nodeUpdated_loggedEvents (cfg : GCConfig) (s : GCState) (n : NodeId)
    (u : GCUsageType) (t : Nat) :
    (nodeUpdated cfg s n u t).loggedEvents = s.loggedEvents := by
  unfold nodeUpdated
  cases alookup s.trackers n with
  | none => rfl
  | some ts =>
    dsimp only
    split <;> rfl

theorem applyOp_countKey_le (cfg : GCConfig) (s : GCState)
    (hinv : ∀ k, countKey s.loggedEvents k ≤ 1) (op : GCOp) :
    ∀ k, countKey ((applyOp cfg s op).loggedEvents) k ≤ 1 := by
  cases op with
  | update n u t =>
    intro k
    have h : (applyOp cfg s (GCOp.update n u t)).loggedEvents = s.loggedEvents :=
      nodeUpdated_loggedEvents cfg s n u t
    rw [h]
    exact hinv k
  | addRef a b => intro k; exact hinv k
  | collect g t =>
    intro k
    exact flushEvents_countKey_le s.pendingEvents _ s.loggedEvents hinv k

theorem applyOps_countKey_le (cfg : GCConfig) (ops : List GCOp) :
    ∀ s : GCState, (∀ k, countKey s.loggedEvents k ≤ 1) →
      ∀ k, countKey ((applyOps cfg s ops).loggedEvents) k ≤ 1 := by
  induction ops with
  | nil => intro s h k; exact h k
  | cons op rest ih =>
    intro s h k
    exact ih _ (applyOp_countKey_le cfg s h op) k

/-! The mark function and the shape of the rebuilt trackers. -/

theorem markFun_key (cfg : GCConfig) (g : GCGraph) (now : Nat) (s : GCState) :
    ∀ k p, markFun cfg g now s k = some p → p.1 = k := by
  intro k p hp
  unfold markFun at hp
  by_cases h1 : k ∈ reachableFrom g ["/"] ∨ k ∈ s.deletedNodes
  · rw [if_pos h1] at hp
    exact absurd hp (by simp)
  · rw [if_neg h1] at hp
    cases halk : alookup s.trackers k with
    | none =>
      rw [halk] at hp
      injection hp with h
      rw [← h]
    | some ts =>
      rw [halk] at hp
      dsimp only at hp
      by_cases h2 : k ∈ referencedSinceLastRun g s
      · rw [if_pos h2] at hp
        injection hp with h
        rw [← h]
      · rw [if_neg h2] at hp
        injection hp with h
        rw [← h]

theorem keysNodup_markPhase (cfg : GCConfig) (g : GCGraph) (now : Nat)
    (s : GCState) (hnd : (graphKeys g).Nodup) :
    keysNodup (markPhase cfg g now s) :=
  keysNodup_filterMap (markFun_key cfg g now s) hnd

theorem keysNodup_filter {α : Type} {l : List (NodeId × α)}
    (q : NodeId × α → Bool) (hnd : keysNodup l) : keysNodup (l.filter q) :=
  ((List.filter_sublist l).map Prod.fst).nodup hnd

theorem alookup_markPhase (cfg : GCConfig) (g : GCGraph) (now : Nat)
    (s : GCState) (hnd : (graphKeys g).Nodup) {n : NodeId}
    (hmem : n ∈ graphKeys g) :
    alookup (markPhase cfg g now s) n = (markFun cfg g now s n).map Prod.snd :=
  alookup_filterMap_of_mem (markFun_key cfg g now s) hnd hmem

theorem alookup_markPhase_not_mem (cfg : GCConfig) (g : GCGraph) (now : Nat)
    (s : GCState) {n : NodeId} (hmem : n ∉ graphKeys g) :
    alookup (markPhase cfg g now s) n = none :=
  alookup_filterMap_of_not_mem (markFun_key cfg g now s) hmem

theorem mem_sweepReadyOf {cfg : GCConfig} {now : Nat}
    {l : List (NodeId × Nat)} {n : NodeId} :
    n ∈ sweepReadyOf cfg now l ↔
      ∃ ts, (n, ts) ∈ l ∧ cfg.sweepTimeoutMs + cfg.sweepGracePeriodMs ≤ now - ts := by
  unfold sweepReadyOf
  constructor
  · intro h
    rcases List.mem_map.mp h with ⟨p, hp, hfst⟩
    rcases List.mem_filter.mp hp with ⟨hl, hq⟩
    refine ⟨p.2, ?_, by simpa using hq⟩
    rw [← hfst]
    exact hl
  · rintro ⟨ts, hmem, hle⟩
    exact List.mem_map.mpr
      ⟨(n, ts), List.mem_filter.mpr ⟨hmem, by simpa using hle⟩, rfl⟩

theorem trackers_collectGarbage (cfg : GCConfig) (g : GCGraph) (now : Nat)
    (s : GCState) :
    (collectGarbage cfg g now s).state.trackers =
      (markPhase cfg g now s).filter
        (fun p => decide (p.1 ∉ (collectGarbage cfg g now s).sweptNodes)) := rfl

end FluidGC

namespace FluidGC

theorem alookup_filterMap_eq_none {α : Type} {f : NodeId → Option (NodeId × α)}
    (hf : ∀ k p, f k = some p → p.1 = k) {keys : List NodeId} {n : NodeId}
    (h : f n = none) : alookup (keys.filterMap f) n = none := by
  apply alookup_eq_none_of_not_mem
  intro hm
  rcases List.mem_map.mp hm with ⟨p, hp, hpn⟩
  rcases List.mem_filterMap.mp hp with ⟨k, hk, hfk⟩
  have hnk : n = k := by rw [← hpn]; exact hf k p hfk
  rw [hnk] at h
  rw [h] at hfk
  exact absurd hfk (by simp)

theorem alookup_map_keys {α : Type} (keys : List NodeId) (h : NodeId → α)
    (x : NodeId) :
    alookup (keys.map (fun n => (n, h n))) x =
      if x ∈ keys then some (h x) else none := by
  induction keys with
  | nil => simp [alookup]
  | cons k rest ih =>
    by_cases hk : k = x
    · subst hk
      simp [alookup]
    · have hxk : ¬x = k := fun he => hk he.symm
      have lhs : alookup ((k, h k) :: rest.map (fun n => (n, h n))) x =
          alookup (rest.map (fun n => (n, h n))) x := by
        simp [alookup, hk]
      rw [List.map_cons, lhs, ih]
      simp [List.mem_cons, hxk]

theorem keys_filterMap_pairs_sublist {α β : Type}
    (f : NodeId × α → Option (NodeId × β))
    (hf : ∀ p q, f p = some q → q.1 = p.1) (l : List (NodeId × α)) :
    ((l.filterMap f).map Prod.fst).Sublist (l.map Prod.fst) := by
  induction l with
  | nil => simp
  | cons p rest ih =>
    cases hfp : f p with
    | none =>
      simp only [List.filterMap_cons, hfp, List.map_cons]
      exact ih.cons p.1
    | some q =>
      simp only [List.filterMap_cons, hfp, List.map_cons]
      rw [hf p q hfp]
      exact ih.cons₂ p.1

theorem alookup_filterMap_pairs {α β : Type} (h : α → Option β)
    (l : List (NodeId × α)) (hnd : keysNodup l) (x : NodeId) :
    alookup (l.filterMap (fun p => (h p.2).map (fun b => (p.1, b)))) x =
      (alookup l x).bind h := by
  induction l with
  | nil => simp [alookup]
  | cons p rest ih =>
    obtain ⟨k, a⟩ := p
    have hnd2 : keysNodup rest := (List.nodup_cons.mp hnd).2
    have hknotin : k ∉ rest.map Prod.fst := (List.nodup_cons.mp hnd).1
    by_cases hkx : k = x
    · subst hkx
      cases hha : h a with
      | some b =>
        simp [List.filterMap_cons, hha, alookup]
      | none =>
        simp only [List.filterMap_cons, hha, Option.map_none']
        have hrhs : alookup ((k, a) :: rest) k = some a := by simp [alookup]
        rw [hrhs]
        have hkeysub :
            ((rest.filterMap (fun p => (h p.2).map (fun b => (p.1, b)))).map
              Prod.fst).Sublist (rest.map Prod.fst) := by
          apply keys_filterMap_pairs_sublist
          intro p q hpq
          rcases Option.map_eq_some'.mp hpq with ⟨b, _, hq⟩
          rw [← hq]
        have hnone :
            alookup (rest.filterMap (fun p => (h p.2).map (fun b => (p.1, b)))) k =
              none := by
          apply alookup_eq_none_of_not_mem
          intro hm
          exact hknotin (hkeysub.subset hm)
        rw [hnone]
        simp [hha]
    · cases hha : h a with
      | some b =>
        simp only [List.filterMap_cons, hha, Option.map_some']
        have lh : alookup ((k, b) ::
            rest.filterMap (fun p => (h p.2).map (fun b => (p.1, b)))) x =
            alookup (rest.filterMap (fun p => (h p.2).map (fun b => (p.1, b)))) x := by
          simp [alookup, hkx]
        have rh : alookup ((k, a) :: rest) x = alookup rest x := by
          simp [alookup, hkx]
        rw [lh, rh, ih hnd2]
      | none =>
        simp only [List.filterMap_cons, hha, Option.map_none']
        have rh : alookup ((k, a) :: rest) x = alookup rest x := by
          simp [alookup, hkx]
        rw [rh, ih hnd2]

end FluidGC

namespace FluidGC

/-- C1: after a completed `collectGarbage()` run, every node reachable from
the synthetic root carries no unreferenced timestamp - it has no tracker
entry in the resulting state, hence no `unreferencedTimestampMs` in the
summarized node table. -/
theorem collectGarbage_reachable_tracker_none (cfg : GCConfig) (g : GCGraph)
    (now : Nat) (s : GCState) (n : NodeId)
    (h : n ∈ reachableFrom g ["/"]) :
    alookup (collectGarbage cfg g now s).state.trackers n = none := by
  rw [trackers_collectGarbage]
  apply alookup_filter_none
  apply alookup_filterMap_eq_none (markFun_key cfg g now s)
  unfold markFun
  rw [if_pos (Or.inl h)]

/-- Witness for C1 on a concrete three-node graph. -/
theorem collectGarbage_reachable_tracker_none_witness :
    "/A" ∈ reachableFrom ⟨[("/", ["/A"]), ("/A", []), ("/B", [])]⟩ ["/"] ∧
      alookup
        (collectGarbage ⟨10, 100, 5, true⟩
          ⟨[("/", ["/A"]), ("/A", []), ("/B", [])]⟩ 1 initialGCState).state.trackers
        "/A" = none :=
  ⟨by decide,
    collectGarbage_reachable_tracker_none ⟨10, 100, 5, true⟩
      ⟨[("/", ["/A"]), ("/A", []), ("/B", [])]⟩ 1 initialGCState "/A" (by decide)⟩

/-- C10: the Loaded / Changed usage telemetry events are emitted at most
once per node and phase - across any sequence of `nodeUpdated`,
`addedOutboundReference` and `collectGarbage` operations driven from a
fresh orchestrator, at most one event is logged per
(node, usage, phase) key. -/
theorem usage_events_once_per_node (cfg : GCConfig) (ops : List GCOp)
    (k : NodeId × GCUsageType × UnreferencedState) :
    countKey ((applyOps cfg initialGCState ops).loggedEvents) k ≤ 1 :=
  applyOps_countKey_le cfg ops initialGCState
    (fun k => by simp [initialGCState, countKey]) k

end FluidGC

namespace FluidGC

/-! Projection lemmas for the result of a run. -/

theorem collectGarbage_newReferences (cfg : GCConfig) (g : GCGraph) (now : Nat)
    (s : GCState) : (collectGarbage cfg g now s).state.newReferences = [] := rfl

theorem collectGarbage_previousGraph (cfg : GCConfig) (g : GCGraph) (now : Nat)
    (s : GCState) : (collectGarbage cfg g now s).state.previousGraph = some g := rfl

theorem collectGarbage_pendingEvents (cfg : GCConfig) (g : GCGraph) (now : Nat)
    (s : GCState) : (collectGarbage cfg g now s).state.pendingEvents = [] := rfl

theorem collectGarbage_deletedNodes (cfg : GCConfig) (g : GCGraph) (now : Nat)
    (s : GCState) :
    (collectGarbage cfg g now s).state.deletedNodes =
      s.deletedNodes ++ (collectGarbage cfg g now s).sweptNodes := rfl

theorem collectGarbage_sweptNodes (cfg : GCConfig) (g : GCGraph) (now : Nat)
    (s : GCState) :
    (collectGarbage cfg g now s).sweptNodes =
      if cfg.sweepEnabled then sweepReadyOf cfg now (markPhase cfg g now s)
      else [] := rfl

theorem collectGarbage_tombstones (cfg : GCConfig) (g : GCGraph) (now : Nat)
    (s : GCState) :
    (collectGarbage cfg g now s).state.tombstones =
      ((collectGarbage cfg g now s).state.trackers.filter
        (fun p => decide (cfg.sweepTimeoutMs ≤ now - p.2))).map Prod.fst := rfl

theorem collectGarbage_loggedEvents (cfg : GCConfig) (g : GCGraph) (now : Nat)
    (s : GCState) :
    (collectGarbage cfg g now s).state.loggedEvents =
      flushEvents s.pendingEvents (collectGarbage cfg g now s).state.trackers
        s.loggedEvents := rfl

theorem referencedSinceLastRun_nil (g : GCGraph) (s : GCState)
    (h : s.newReferences = []) : referencedSinceLastRun g s = [] := by
  unfold referencedSinceLastRun
  cases hpg : s.previousGraph with
  | none => rfl
  | some pg => simp [h]

theorem filter_filterMap {α β : Type} (f : α → Option β) (q : β → Bool)
    (l : List α) :
    (l.filterMap f).filter q = l.filterMap (fun a => (f a).filter q) := by
  induction l with
  | nil => rfl
  | cons a rest ih =>
    cases hfa : f a with
    | none => simp [List.filterMap_cons, hfa, ih, Option.filter]
    | some b =>
      cases hqb : q b with
      | true =>
        simp [List.filterMap_cons, hfa, List.filter_cons, hqb, ih, Option.filter]
      | false =>
        simp [List.filterMap_cons, hfa, List.filter_cons, hqb, ih, Option.filter]

theorem markFun_isSome (cfg : GCConfig) (g : GCGraph) (now : Nat) (s : GCState)
    {n : NodeId} (h : ¬(n ∈ reachableFrom g ["/"] ∨ n ∈ s.deletedNodes)) :
    ∃ t, markFun cfg g now s n = some (n, t) := by
  unfold markFun
  rw [if_neg h]
  cases alookup s.trackers n with
  | none => exact ⟨now, rfl⟩
  | some ts =>
    dsimp only
    by_cases hrs : n ∈ referencedSinceLastRun g s
    · rw [if_pos hrs]; exact ⟨now, rfl⟩
    · rw [if_neg hrs]; exact ⟨ts, rfl⟩

theorem markPhase_stable (cfg : GCConfig) (g : GCGraph) (now : Nat)
    (s₀ : GCState) (hnd : (graphKeys g).Nodup) :
    markPhase cfg g now (collectGarbage cfg g now s₀).state =
      (collectGarbage cfg g now s₀).state.trackers := by
  have htr : (collectGarbage cfg g now s₀).state.trackers =
      (markPhase cfg g now s₀).filter
        (fun p => decide (p.1 ∉ (collectGarbage cfg g now s₀).sweptNodes)) := rfl
  rw [htr]
  unfold markPhase
  rw [filter_filterMap]
  apply List.filterMap_congr
  intro n hn
  by_cases hR : n ∈ reachableFrom g ["/"]
  · have h1 : markFun cfg g now (collectGarbage cfg g now s₀).state n = none := by
      unfold markFun; rw [if_pos (Or.inl hR)]
    have h0 : markFun cfg g now s₀ n = none := by
      unfold markFun; rw [if_pos (Or.inl hR)]
    rw [h1, h0]
    rfl
  · by_cases hD : n ∈ s₀.deletedNodes
    · have h1 : markFun cfg g now (collectGarbage cfg g now s₀).state n = none := by
        unfold markFun
        rw [if_pos (Or.inr (by
          rw [collectGarbage_deletedNodes]
          exact List.mem_append_left _ hD))]
      have h0 : markFun cfg g now s₀ n = none := by
        unfold markFun; rw [if_pos (Or.inr hD)]
      rw [h1, h0]
      rfl
    · obtain ⟨t, ht⟩ := markFun_isSome cfg g now s₀ (by tauto) (n := n)
      by_cases hW : n ∈ (collectGarbage cfg g now s₀).sweptNodes
      · have h1 : markFun cfg g now (collectGarbage cfg g now s₀).state n = none := by
          unfold markFun
          rw [if_pos (Or.inr (by
            rw [collectGarbage_deletedNodes]
            exact List.mem_append_right _ hW))]
        rw [h1, ht]
        simp [Option.filter, hW]
      · rw [ht]
        have hrhs : (some (n, t)).filter
            (fun p => decide (p.1 ∉ (collectGarbage cfg g now s₀).sweptNodes)) =
            some (n, t) := by
          simp [Option.filter, hW]
        rw [hrhs]
        unfold markFun
        rw [if_neg (by
          rw [collectGarbage_deletedNodes]
          push_neg
          refine ⟨hR, ?_⟩
          rw [List.mem_append]
          push_neg
          exact ⟨hD, hW⟩)]
        have hal : alookup (collectGarbage cfg g now s₀).state.trackers n =
            some t := by
          rw [trackers_collectGarbage]
          apply alookup_filter_of_some
          · rw [alookup_markPhase cfg g now s₀ hnd hn, ht]
            rfl
          · simp [hW]
        rw [hal]
        dsimp only
        rw [if_neg (by
          rw [referencedSinceLastRun_nil g _ (collectGarbage_newReferences cfg g now s₀)]
          simp)]

end FluidGC

namespace FluidGC

theorem collectGarbage_unknownRefEvents (cfg : GCConfig) (g : GCGraph)
    (now : Nat) (s : GCState) :
    (collectGarbage cfg g now s).state.unknownRefEvents =
      s.unknownRefEvents ++
        (match s.previousGraph with
         | some pg => detectUnknownRefs pg g s.newReferences
         | none => []) := rfl

theorem sweepReadyOf_stable (cfg : GCConfig) (g : GCGraph) (now : Nat)
    (s₀ : GCState) (hEn : cfg.sweepEnabled = true) :
    sweepReadyOf cfg now (collectGarbage cfg g now s₀).state.trackers = [] := by
  unfold sweepReadyOf
  rw [List.map_eq_nil_iff]
  apply List.filter_eq_nil_iff.mpr
  intro p hp
  rw [trackers_collectGarbage] at hp
  rcases List.mem_filter.mp hp with ⟨hbase, hq⟩
  simp only [decide_eq_true_eq] at hq ⊢
  intro hthr
  apply hq
  rw [collectGarbage_sweptNodes, hEn, if_pos rfl]
  exact mem_sweepReadyOf.mpr ⟨p.2, hbase, hthr⟩

theorem collectGarbage_stable (cfg : GCConfig) (g : GCGraph) (now : Nat)
    (s₀ : GCState) (hnd : (graphKeys g).Nodup) :
    (collectGarbage cfg g now (collectGarbage cfg g now s₀).state).state =
      (collectGarbage cfg g now s₀).state := by
  have hswept :
      (collectGarbage cfg g now (collectGarbage cfg g now s₀).state).sweptNodes =
        [] := by
    rw [collectGarbage_sweptNodes]
    cases hEn : cfg.sweepEnabled with
    | false => simp
    | true =>
      rw [if_pos rfl]
      rw [markPhase_stable cfg g now s₀ hnd]
      exact sweepReadyOf_stable cfg g now s₀ hEn
  have htrk :
      (collectGarbage cfg g now (collectGarbage cfg g now s₀).state).state.trackers =
        (collectGarbage cfg g now s₀).state.trackers := by
    rw [trackers_collectGarbage, hswept, markPhase_stable cfg g now s₀ hnd]
    apply List.filter_eq_self.mpr
    intro p hp
    simp
  ext : 1
  · exact htrk
  · rw [collectGarbage_tombstones, collectGarbage_tombstones, htrk]
  · rw [collectGarbage_deletedNodes, hswept, List.append_nil]
  · rw [collectGarbage_newReferences, collectGarbage_newReferences]
  · rw [collectGarbage_previousGraph, collectGarbage_previousGraph]
  · rw [collectGarbage_pendingEvents, collectGarbage_pendingEvents]
  · rw [collectGarbage_loggedEvents, collectGarbage_pendingEvents]
    rfl
  · rw [collectGarbage_unknownRefEvents, collectGarbage_previousGraph,
      collectGarbage_newReferences]
    simp [detectUnknownRefs_self]

end FluidGC

namespace FluidGC

/-- C6: running `collectGarbage()` twice on the same reference graph, with
no edge change and no `addedOutboundReference` report between the runs,
yields identical unreferenced timestamps - every node present in the
second run's tracker output carries exactly the timestamp it had after
the first run. -/
theorem collectGarbage_idempotent_timestamps (cfg : GCConfig) (g : GCGraph)
    (now₁ now₂ : Nat) (s₀ : GCState) (n : NodeId) (ts : Nat)
    (hnd : (graphKeys g).Nodup)
    (h : alookup (collectGarbage cfg g now₂
        (collectGarbage cfg g now₁ s₀).state).state.trackers n = some ts) :
    alookup (collectGarbage cfg g now₁ s₀).state.trackers n = some ts := by
  have hnd₂ : keysNodup
      (markPhase cfg g now₂ (collectGarbage cfg g now₁ s₀).state) :=
    keysNodup_markPhase _ _ _ _ hnd
  have hbase₂ : alookup
      (markPhase cfg g now₂ (collectGarbage cfg g now₁ s₀).state) n = some ts := by
    rw [trackers_collectGarbage] at h
    exact alookup_of_filter_some hnd₂ h
  have hn : n ∈ graphKeys g := by
    by_contra hc
    rw [alookup_markPhase_not_mem cfg g now₂ _ hc] at hbase₂
    exact absurd hbase₂ (by simp)
  rw [alookup_markPhase cfg g now₂ _ hnd hn] at hbase₂
  cases hmf : markFun cfg g now₂ (collectGarbage cfg g now₁ s₀).state n with
  | none =>
    rw [hmf] at hbase₂
    exact absurd hbase₂ (by simp)
  | some p =>
    have hp1 : p.1 = n := markFun_key cfg g now₂ _ n p hmf
    rw [hmf] at hbase₂
    have hp2 : p.2 = ts := by simpa using hbase₂
    unfold markFun at hmf
    by_cases hRD : n ∈ reachableFrom g ["/"] ∨
        n ∈ (collectGarbage cfg g now₁ s₀).state.deletedNodes
    · rw [if_pos hRD] at hmf
      exact absurd hmf (by simp)
    · rw [if_neg hRD] at hmf
      cases halk : alookup (collectGarbage cfg g now₁ s₀).state.trackers n with
      | some ts2 =>
        rw [halk] at hmf
        dsimp only at hmf
        rw [if_neg (by
          rw [referencedSinceLastRun_nil g _
            (collectGarbage_newReferences cfg g now₁ s₀)]
          simp)] at hmf
        have hts : ts2 = ts := by
          injection hmf with he
          rw [← he] at hp2
          simpa using hp2
        rw [hts]
      | none =>
        exfalso
        push_neg at hRD
        obtain ⟨hR, hDel⟩ := hRD
        rw [collectGarbage_deletedNodes, List.mem_append] at hDel
        push_neg at hDel
        obtain ⟨hD0, hW⟩ := hDel
        obtain ⟨t, htf⟩ := markFun_isSome cfg g now₁ s₀ (n := n) (by tauto)
        have hb1 : alookup (markPhase cfg g now₁ s₀) n = some t := by
          rw [alookup_markPhase cfg g now₁ s₀ hnd hn, htf]
          rfl
        have halk2 : alookup (collectGarbage cfg g now₁ s₀).state.trackers n =
            some t := by
          rw [trackers_collectGarbage]
          exact alookup_filter_of_some hb1 (by simp [hW])
        rw [halk] at halk2
        exact absurd halk2 (by simp)

/-- Witness for C6: B unreferenced at time 1 keeps timestamp 1 through a
second run at time 2. -/
theorem collectGarbage_idempotent_timestamps_witness :
    (graphKeys ⟨[("/", ["/A"]), ("/A", []), ("/B", [])]⟩).Nodup ∧
      alookup (collectGarbage ⟨10, 100, 5, true⟩
          ⟨[("/", ["/A"]), ("/A", []), ("/B", [])]⟩ 2
          (collectGarbage ⟨10, 100, 5, true⟩
            ⟨[("/", ["/A"]), ("/A", []), ("/B", [])]⟩ 1
            initialGCState).state).state.trackers "/B" = some 1 ∧
      alookup (collectGarbage ⟨10, 100, 5, true⟩
          ⟨[("/", ["/A"]), ("/A", []), ("/B", [])]⟩ 1
          initialGCState).state.trackers "/B" = some 1 :=
  ⟨by decide, by decide,
    collectGarbage_idempotent_timestamps ⟨10, 100, 5, true⟩
      ⟨[("/", ["/A"]), ("/A", []), ("/B", [])]⟩ 1 2 initialGCState "/B" 1
      (by decide) (by decide)⟩

/-- C8: with no GC change since the latest acknowledged summary,
`summarize(fullTree := false, trackState := true)` returns a handle-typed
GC subtree: after a run is summarized and acknowledged, a second run on
the unchanged graph summarizes to a handle rather than a tree. -/
theorem summarize_handle_when_unchanged (cfg : GCConfig) (g : GCGraph)
    (now : Nat) (s₀ : GCState) (t₀ : GCSummaryStateTracker)
    (hnd : (graphKeys g).Nodup) :
    summarize false true
      (refreshLatestSummary (summaryDataOf (collectGarbage cfg g now s₀).state) t₀)
      (summaryDataOf
        (collectGarbage cfg g now (collectGarbage cfg g now s₀).state).state) =
      GCSummaryResult.handle := by
  rw [collectGarbage_stable cfg g now s₀ hnd]
  unfold summarize refreshLatestSummary
  rw [if_pos ⟨rfl, rfl, rfl⟩]

/-- Witness for C8 on a concrete graph. -/
theorem summarize_handle_when_unchanged_witness :
    (graphKeys ⟨[("/", ["/A"]), ("/A", []), ("/B", [])]⟩).Nodup ∧
      summarize false true
        (refreshLatestSummary
          (summaryDataOf (collectGarbage ⟨10, 100, 5, true⟩
            ⟨[("/", ["/A"]), ("/A", []), ("/B", [])]⟩ 1 initialGCState).state)
          ⟨none⟩)
        (summaryDataOf
          (collectGarbage ⟨10, 100, 5, true⟩
            ⟨[("/", ["/A"]), ("/A", []), ("/B", [])]⟩ 1
            (collectGarbage ⟨10, 100, 5, true⟩
              ⟨[("/", ["/A"]), ("/A", []), ("/B", [])]⟩ 1
              initialGCState).state).state) = GCSummaryResult.handle :=
  ⟨by decide,
    summarize_handle_when_unchanged ⟨10, 100, 5, true⟩
      ⟨[("/", ["/A"]), ("/A", []), ("/B", [])]⟩ 1 initialGCState ⟨none⟩
      (by decide)⟩

end FluidGC

namespace FluidGC

theorem alookup_of_mem_nodup {α : Type} {l : List (NodeId × α)}
    (hnd : keysNodup l) {n : NodeId} {v : α} (h : (n, v) ∈ l) :
    alookup l n = some v := by
  induction l with
  | nil => simp at h
  | cons p rest ih =>
    rcases List.nodup_cons.mp hnd with ⟨hk, hndr⟩
    cases List.mem_cons.mp h with
    | inl he =>
      rw [← he]
      simp [alookup]
    | inr hr =>
      have hpn : p.1 ≠ n := by
        intro hc
        exact hk (by rw [hc]; exact List.mem_map.mpr ⟨(n, v), hr, rfl⟩)
      simp [alookup, hpn, ih hndr hr]

/-- C2: with sweep enabled and `sweepGracePeriodMs = 0`, a node whose
elapsed unreferenced time has reached `sweepTimeoutMs` is, on the next
`collectGarbage()` run, passed to `deleteSweepReadyNodes`, removed from the
tracked node set, added to `deletedNodes`, and any subsequent access to it
throws. -/
theorem collectGarbage_sweeps_expired_node (cfg : GCConfig) (g : GCGraph)
    (now : Nat) (s : GCState) (n : NodeId) (ts : Nat)
    (hnd : (graphKeys g).Nodup)
    (hEn : cfg.sweepEnabled = true)
    (hGrace : cfg.sweepGracePeriodMs = 0)
    (hkey : n ∈ graphKeys g)
    (hR : n ∉ reachableFrom g ["/"])
    (hD : n ∉ s.deletedNodes)
    (hts : alookup s.trackers n = some ts)
    (helapsed : cfg.sweepTimeoutMs ≤ now - ts)
    (hrefs : s.newReferences = []) :
    n ∈ (collectGarbage cfg g now s).sweptNodes ∧
      alookup (collectGarbage cfg g now s).state.trackers n = none ∧
      n ∈ (collectGarbage cfg g now s).state.deletedNodes ∧
      accessNode (collectGarbage cfg g now s).state n =
        Except.error "object is deleted" := by
  have hmf : markFun cfg g now s n = some (n, ts) := by
    unfold markFun
    rw [if_neg (by tauto), hts]
    dsimp only
    rw [if_neg (by rw [referencedSinceLastRun_nil g s hrefs]; simp)]
  have hbase : alookup (markPhase cfg g now s) n = some ts := by
    rw [alookup_markPhase cfg g now s hnd hkey, hmf]
    rfl
  have hmemBase : (n, ts) ∈ markPhase cfg g now s := mem_of_alookup_eq_some hbase
  have hsw : n ∈ (collectGarbage cfg g now s).sweptNodes := by
    rw [collectGarbage_sweptNodes, hEn, if_pos rfl]
    exact mem_sweepReadyOf.mpr ⟨ts, hmemBase, by rw [hGrace]; simpa using helapsed⟩
  refine ⟨hsw, ?_, ?_, ?_⟩
  · rw [trackers_collectGarbage, alookup_eq_none_iff]
    intro p hp hpn
    rcases List.mem_filter.mp hp with ⟨hpb, hq⟩
    simp only [decide_eq_true_eq] at hq
    exact hq (by rw [hpn]; exact hsw)
  · rw [collectGarbage_deletedNodes]
    exact List.mem_append_right _ hsw
  · unfold accessNode
    rw [if_pos (by
      rw [collectGarbage_deletedNodes]
      exact List.mem_append_right _ hsw)]

/-- Witness for C2: B unreferenced at time 0 is swept by the run at
time 100 with the default-style thresholds scaled down. -/
theorem collectGarbage_sweeps_expired_node_witness :
    (alookup (collectGarbage ⟨10, 100, 0, true⟩ ⟨[("/", []), ("/B", [])]⟩ 0
        initialGCState).state.trackers "/B" = some 0) ∧
      "/B" ∈ (collectGarbage ⟨10, 100, 0, true⟩ ⟨[("/", []), ("/B", [])]⟩ 100
        (collectGarbage ⟨10, 100, 0, true⟩ ⟨[("/", []), ("/B", [])]⟩ 0
          initialGCState).state).sweptNodes ∧
      alookup (collectGarbage ⟨10, 100, 0, true⟩ ⟨[("/", []), ("/B", [])]⟩ 100
        (collectGarbage ⟨10, 100, 0, true⟩ ⟨[("/", []), ("/B", [])]⟩ 0
          initialGCState).state).state.trackers "/B" = none ∧
      "/B" ∈ (collectGarbage ⟨10, 100, 0, true⟩ ⟨[("/", []), ("/B", [])]⟩ 100
        (collectGarbage ⟨10, 100, 0, true⟩ ⟨[("/", []), ("/B", [])]⟩ 0
          initialGCState).state).state.deletedNodes ∧
      accessNode (collectGarbage ⟨10, 100, 0, true⟩ ⟨[("/", []), ("/B", [])]⟩ 100
        (collectGarbage ⟨10, 100, 0, true⟩ ⟨[("/", []), ("/B", [])]⟩ 0
          initialGCState).state).state "/B" = Except.error "object is deleted" :=
  ⟨by decide,
    (collectGarbage_sweeps_expired_node ⟨10, 100, 0, true⟩
      ⟨[("/", []), ("/B", [])]⟩ 100
      (collectGarbage ⟨10, 100, 0, true⟩ ⟨[("/", []), ("/B", [])]⟩ 0
        initialGCState).state "/B" 0
      (by decide) (by decide) (by decide) (by decide) (by decide) (by decide)
      (by decide) (by decide) (by decide)).1,
    (collectGarbage_sweeps_expired_node ⟨10, 100, 0, true⟩
      ⟨[("/", []), ("/B", [])]⟩ 100
      (collectGarbage ⟨10, 100, 0, true⟩ ⟨[("/", []), ("/B", [])]⟩ 0
        initialGCState).state "/B" 0
      (by decide) (by decide) (by decide) (by decide) (by decide) (by decide)
      (by decide) (by decide) (by decide)).2⟩

/-- C3: a node that stays unreferenced across two consecutive runs but
whose reference was observed between the runs via `addedOutboundReference`
(even transient, or from another unreferenced node) has its tracker
re-stamped by the second run to that run's reference time, strictly
greater than its previous timestamp. -/
theorem collectGarbage_restamps_referenced_between_runs (cfg : GCConfig)
    (g : GCGraph) (now : Nat) (s : GCState) (x n : NodeId) (ts : Nat)
    (hnd : (graphKeys g).Nodup)
    (hprev : s.previousGraph.isSome = true)
    (href : (x, n) ∈ s.newReferences)
    (hkey : n ∈ graphKeys g)
    (hR : n ∉ reachableFrom g ["/"])
    (hD : n ∉ s.deletedNodes)
    (hts : alookup s.trackers n = some ts)
    (hlt : ts < now)
    (hpos : 0 < cfg.sweepTimeoutMs) :
    alookup (collectGarbage cfg g now s).state.trackers n = some now ∧
      ts < now := by
  have hne : s.newReferences ≠ [] := by
    intro hc
    rw [hc] at href
    simp at href
  have hrefd : n ∈ referencedSinceLastRun g s := by
    unfold referencedSinceLastRun
    cases hpg : s.previousGraph with
    | none => rw [hpg] at hprev; simp at hprev
    | some pg =>
      dsimp only
      rw [if_neg hne]
      apply subset_reachableFrom
      exact List.mem_cons_of_mem _
        (List.mem_map.mpr ⟨(x, n), href, rfl⟩)
  have hmf : markFun cfg g now s n = some (n, now) := by
    unfold markFun
    rw [if_neg (by tauto), hts]
    dsimp only
    rw [if_pos hrefd]
  have hbase : alookup (markPhase cfg g now s) n = some now := by
    rw [alookup_markPhase cfg g now s hnd hkey, hmf]
    rfl
  have hnsw : n ∉ (collectGarbage cfg g now s).sweptNodes := by
    rw [collectGarbage_sweptNodes]
    cases hEn : cfg.sweepEnabled with
    | false => simp
    | true =>
      rw [if_pos rfl]
      intro hmem
      rcases mem_sweepReadyOf.mp hmem with ⟨ts2, hmem2, hthr⟩
      have : alookup (markPhase cfg g now s) n = some ts2 :=
        alookup_of_mem_nodup (keysNodup_markPhase cfg g now s hnd) hmem2
      rw [hbase] at this
      have hts2 : now = ts2 := by simpa using this
      rw [← hts2] at hthr
      simp at hthr
      omega
  refine ⟨?_, hlt⟩
  rw [trackers_collectGarbage]
  exact alookup_filter_of_some hbase (by simp [hnsw])

/-- Witness for C3: C unreferenced at time 1; B references C before the
run at time 2; C is re-stamped to 2. -/
theorem collectGarbage_restamps_witness :
    ((addedOutboundReference
        (collectGarbage ⟨10, 100, 5, true⟩
          ⟨[("/", ["/A"]), ("/A", []), ("/B", ["/C"]), ("/C", [])]⟩ 1
          initialGCState).state "/B" "/C").newReferences = [("/B", "/C")]) ∧
      alookup (collectGarbage ⟨10, 100, 5, true⟩
        ⟨[("/", ["/A"]), ("/A", []), ("/B", ["/C"]), ("/C", [])]⟩ 2
        (addedOutboundReference
          (collectGarbage ⟨10, 100, 5, true⟩
            ⟨[("/", ["/A"]), ("/A", []), ("/B", ["/C"]), ("/C", [])]⟩ 1
            initialGCState).state "/B" "/C")).state.trackers "/C" = some 2 ∧
      (1 : Nat) < 2 :=
  ⟨by decide,
    (collectGarbage_restamps_referenced_between_runs ⟨10, 100, 5, true⟩
      ⟨[("/", ["/A"]), ("/A", []), ("/B", ["/C"]), ("/C", [])]⟩ 2
      (addedOutboundReference
        (collectGarbage ⟨10, 100, 5, true⟩
          ⟨[("/", ["/A"]), ("/A", []), ("/B", ["/C"]), ("/C", [])]⟩ 1
          initialGCState).state "/B" "/C") "/B" "/C" 1
      (by decide) (by decide) (by decide) (by decide) (by decide) (by decide)
      (by decide) (by decide) (by decide)).1,
    (collectGarbage_restamps_referenced_between_runs ⟨10, 100, 5, true⟩
      ⟨[("/", ["/A"]), ("/A", []), ("/B", ["/C"]), ("/C", [])]⟩ 2
      (addedOutboundReference
        (collectGarbage ⟨10, 100, 5, true⟩
          ⟨[("/", ["/A"]), ("/A", []), ("/B", ["/C"]), ("/C", [])]⟩ 1
          initialGCState).state "/B" "/C") "/B" "/C" 1
      (by decide) (by decide) (by decide) (by decide) (by decide) (by decide)
      (by decide) (by decide) (by decide)).2⟩

end FluidGC

namespace FluidGC

/-- C7: for a node unreferenced since ts, a usage at any time with elapsed
at most inactiveTimeoutMs - 1 produces no event (the state is still
Unreferenced so `nodeUpdated` is a no-op), while a usage at elapsed time
exactly inactiveTimeoutMs followed by the next `collectGarbage()` run
produces exactly one Inactive event for that node. -/
theorem inactive_event_exactly_at_timeout (cfg : GCConfig) (g : GCGraph)
    (s : GCState) (n : NodeId) (u : GCUsageType) (ts t : Nat)
    (hnd : (graphKeys g).Nodup)
    (hlt : cfg.inactiveTimeoutMs < cfg.sweepTimeoutMs)
    (hts : alookup s.trackers n = some ts)
    (hkey : n ∈ graphKeys g)
    (hR : n ∉ reachableFrom g ["/"])
    (hD : n ∉ s.deletedNodes)
    (hrefs : s.newReferences = [])
    (hpend : s.pendingEvents = [])
    (hlog : ∀ e ∈ s.loggedEvents,
      ¬(e.nodeId = n ∧ e.state = UnreferencedState.Inactive))
    (hearly : t - ts < cfg.inactiveTimeoutMs) :
    nodeUpdated cfg s n u t = s ∧
      ((collectGarbage cfg g (ts + cfg.inactiveTimeoutMs)
          (nodeUpdated cfg s n u
            (ts + cfg.inactiveTimeoutMs))).state.loggedEvents.countP
        (fun e =>
          decide (e.nodeId = n ∧ e.state = UnreferencedState.Inactive))) = 1 := by
  constructor
  · have hstA : computeState cfg (t - ts) = UnreferencedState.Unreferenced := by
      unfold computeState
      rw [if_neg (by omega), if_neg (by omega), if_neg (by omega)]
    unfold nodeUpdated
    rw [hts]
    dsimp only
    rw [if_pos hstA]
  · have helapsed : ts + cfg.inactiveTimeoutMs - ts = cfg.inactiveTimeoutMs := by
      omega
    have hstB : computeState cfg (ts + cfg.inactiveTimeoutMs - ts) =
        UnreferencedState.Inactive := by
      rw [helapsed]
      unfold computeState
      rw [if_neg (by omega), if_neg (by omega), if_pos (le_refl _)]
    have hupd : nodeUpdated cfg s n u (ts + cfg.inactiveTimeoutMs) =
        { s with pendingEvents :=
            s.pendingEvents ++ [⟨n, u, UnreferencedState.Inactive⟩] } := by
      unfold nodeUpdated
      rw [hts]
      dsimp only
      rw [hstB]
      rw [if_neg (by simp)]
    rw [hupd]
    rw [collectGarbage_loggedEvents]
    have hmf : markFun cfg g (ts + cfg.inactiveTimeoutMs)
        { s with pendingEvents :=
            s.pendingEvents ++ [⟨n, u, UnreferencedState.Inactive⟩] } n =
        some (n, ts) := by
      unfold markFun
      rw [if_neg (by
        dsimp only
        push_neg
        exact ⟨hR, hD⟩)]
      have hts2 : alookup ({ s with pendingEvents :=
          s.pendingEvents ++ [⟨n, u, UnreferencedState.Inactive⟩] } :
            GCState).trackers n = some ts := hts
      rw [hts2]
      dsimp only
      rw [if_neg (by
        rw [referencedSinceLastRun_nil _ _ (by exact hrefs)]
        simp)]
    have hbase : alookup (markPhase cfg g (ts + cfg.inactiveTimeoutMs)
        { s with pendingEvents :=
            s.pendingEvents ++ [⟨n, u, UnreferencedState.Inactive⟩] }) n =
        some ts := by
      rw [alookup_markPhase _ _ _ _ hnd hkey, hmf]
      rfl
    have hnsw : n ∉ (collectGarbage cfg g (ts + cfg.inactiveTimeoutMs)
        { s with pendingEvents :=
            s.pendingEvents ++ [⟨n, u, UnreferencedState.Inactive⟩] }).sweptNodes := by
      rw [collectGarbage_sweptNodes]
      cases hEn : cfg.sweepEnabled with
      | false => simp
      | true =>
        rw [if_pos rfl]
        intro hmem
        rcases mem_sweepReadyOf.mp hmem with ⟨ts2, hmem2, hthr⟩
        have heq : alookup (markPhase cfg g (ts + cfg.inactiveTimeoutMs)
            { s with pendingEvents :=
                s.pendingEvents ++ [⟨n, u, UnreferencedState.Inactive⟩] }) n =
            some ts2 :=
          alookup_of_mem_nodup (keysNodup_markPhase _ _ _ _ hnd) hmem2
        rw [hbase] at heq
        have : ts = ts2 := by simpa using heq
        omega
    have hfinal : alookup (collectGarbage cfg g (ts + cfg.inactiveTimeoutMs)
        { s with pendingEvents :=
            s.pendingEvents ++ [⟨n, u, UnreferencedState.Inactive⟩] }).state.trackers
        n = some ts := by
      rw [trackers_collectGarbage]
      exact alookup_filter_of_some hbase (by simp [hnsw])
    have hpe : ({ s with pendingEvents :=
        s.pendingEvents ++ [⟨n, u, UnreferencedState.Inactive⟩] } :
          GCState).pendingEvents = [⟨n, u, UnreferencedState.Inactive⟩] := by
      dsimp only
      rw [hpend]
      rfl
    rw [hpe]
    have hcond : (alookup (collectGarbage cfg g (ts + cfg.inactiveTimeoutMs)
          { s with pendingEvents :=
              s.pendingEvents ++ [⟨n, u, UnreferencedState.Inactive⟩] }).state.trackers
          (UsageEvent.mk n u UnreferencedState.Inactive).nodeId).isSome = true ∧
        ∀ l ∈ ({ s with pendingEvents :=
            s.pendingEvents ++ [⟨n, u, UnreferencedState.Inactive⟩] } :
              GCState).loggedEvents,
          eventKey l ≠ eventKey (UsageEvent.mk n u UnreferencedState.Inactive) := by
      constructor
      · rw [show (UsageEvent.mk n u UnreferencedState.Inactive).nodeId = n from rfl,
          hfinal]
        rfl
      · intro l hl hkeq
        apply hlog l hl
        have h1 : l.nodeId = n := congrArg Prod.fst hkeq
        have h2 : l.state = UnreferencedState.Inactive :=
          congrArg (fun q => q.2.2) hkeq
        exact ⟨h1, h2⟩
    have hflush : flushEvents [⟨n, u, UnreferencedState.Inactive⟩]
        (collectGarbage cfg g (ts + cfg.inactiveTimeoutMs)
          { s with pendingEvents :=
              s.pendingEvents ++ [⟨n, u, UnreferencedState.Inactive⟩] }).state.trackers
        ({ s with pendingEvents :=
            s.pendingEvents ++ [⟨n, u, UnreferencedState.Inactive⟩] } :
              GCState).loggedEvents =
        s.loggedEvents ++ [⟨n, u, UnreferencedState.Inactive⟩] := by
      have hstep : flushEvents [⟨n, u, UnreferencedState.Inactive⟩]
          (collectGarbage cfg g (ts + cfg.inactiveTimeoutMs)
            { s with pendingEvents :=
                s.pendingEvents ++ [⟨n, u, UnreferencedState.Inactive⟩] }).state.trackers
          ({ s with pendingEvents :=
              s.pendingEvents ++ [⟨n, u, UnreferencedState.Inactive⟩] } :
                GCState).loggedEvents =
          if (alookup (collectGarbage cfg g (ts + cfg.inactiveTimeoutMs)
              { s with pendingEvents :=
                  s.pendingEvents ++ [⟨n, u, UnreferencedState.Inactive⟩] }).state.trackers
              (UsageEvent.mk n u UnreferencedState.Inactive).nodeId).isSome = true
              ∧ ∀ l ∈ ({ s with pendingEvents :=
                  s.pendingEvents ++ [⟨n, u, UnreferencedState.Inactive⟩] } :
                    GCState).loggedEvents,
                eventKey l ≠ eventKey (UsageEvent.mk n u UnreferencedState.Inactive)
          then s.loggedEvents ++ [⟨n, u, UnreferencedState.Inactive⟩]
          else s.loggedEvents := rfl
      rw [hstep, if_pos hcond]
    rw [hflush]
    rw [List.countP_append]
    have hz : s.loggedEvents.countP
        (fun e => decide (e.nodeId = n ∧ e.state = UnreferencedState.Inactive)) =
        0 := by
      apply List.countP_eq_zero.mpr
      intro e he
      simpa using hlog e he
    rw [hz]
    simp

end FluidGC

namespace FluidGC

/-- Witness for C7: B unreferenced at time 0, inactive timeout 10 - a load
at time 9 is a no-op, a load at time 10 plus the next run logs exactly one
Inactive event. -/
theorem inactive_event_exactly_at_timeout_witness :
    alookup (collectGarbage ⟨10, 100, 5, true⟩ ⟨[("/", []), ("/B", [])]⟩ 0
        initialGCState).state.trackers "/B" = some 0 ∧
      (9 - 0 < 10) ∧
      (nodeUpdated ⟨10, 100, 5, true⟩
          (collectGarbage ⟨10, 100, 5, true⟩ ⟨[("/", []), ("/B", [])]⟩ 0
            initialGCState).state "/B" GCUsageType.Loaded 9 =
        (collectGarbage ⟨10, 100, 5, true⟩ ⟨[("/", []), ("/B", [])]⟩ 0
          initialGCState).state ∧
      ((collectGarbage ⟨10, 100, 5, true⟩ ⟨[("/", []), ("/B", [])]⟩ (0 + 10)
          (nodeUpdated ⟨10, 100, 5, true⟩
            (collectGarbage ⟨10, 100, 5, true⟩ ⟨[("/", []), ("/B", [])]⟩ 0
              initialGCState).state "/B" GCUsageType.Loaded
            (0 + 10))).state.loggedEvents.countP
        (fun e =>
          decide (e.nodeId = "/B" ∧ e.state = UnreferencedState.Inactive))) = 1) :=
  ⟨by decide, by decide,
    inactive_event_exactly_at_timeout ⟨10, 100, 5, true⟩
      ⟨[("/", []), ("/B", [])]⟩
      (collectGarbage ⟨10, 100, 5, true⟩ ⟨[("/", []), ("/B", [])]⟩ 0
        initialGCState).state "/B" GCUsageType.Loaded 0 9
      (by decide) (by decide) (by decide) (by decide) (by decide) (by decide)
      (by decide) (by decide) (by decide) (by decide)⟩

/-- Counterexample to C4 as stated: with inactive timeout 10, node B is
unreferenced at time 0 and Inactive by time 20; a reference to the still
unreachable B is observed between runs, and the run at time 20 re-stamps
the tracker without removing it - B's phase moves backward from Inactive
to Unreferenced across the run. -/
theorem phase_backward_counterexample :
    phaseOf ⟨10, 100, 5, false⟩ 20
        (addedOutboundReference (collectGarbage ⟨10, 100, 5, false⟩
          ⟨[("/", []), ("/B", [])]⟩ 0 initialGCState).state "/C" "/B") "/B" =
      some UnreferencedState.Inactive ∧
      phaseOf ⟨10, 100, 5, false⟩ 20
          (collectGarbage ⟨10, 100, 5, false⟩ ⟨[("/", []), ("/B", [])]⟩ 20
            (addedOutboundReference (collectGarbage ⟨10, 100, 5, false⟩
              ⟨[("/", []), ("/B", [])]⟩ 0 initialGCState).state
              "/C" "/B")).state "/B" =
        some UnreferencedState.Unreferenced ∧
      stateRank UnreferencedState.Unreferenced <
        stateRank UnreferencedState.Inactive :=
  ⟨by decide, by decide, by decide⟩

/-- C4 (amended): absent any reference observed since the last run, a
`collectGarbage()` run never changes the timestamp of a node that stays
tracked, and the phase computed from a fixed timestamp is monotone in time
in the order Unreferenced, Inactive, TombstoneReady, SweepReady - so such
runs never move a phase backward.  (As originally stated the claim fails:
when a reference to a still-unreferenced node is observed between runs via
`addedOutboundReference`, the run re-stamps the tracker to the run time,
resetting the phase without removing the tracker.) -/
theorem phase_monotone_without_new_references (cfg : GCConfig) (g : GCGraph)
    (now : Nat) (s : GCState) (n : NodeId) (ts ts2 : Nat)
    (hnd : (graphKeys g).Nodup)
    (hrefs : s.newReferences = [])
    (hts : alookup s.trackers n = some ts)
    (hts2 : alookup (collectGarbage cfg g now s).state.trackers n = some ts2) :
    ts2 = ts ∧
      ∀ t₁ t₂ : Nat, t₁ ≤ t₂ →
        stateRank (computeState cfg (t₁ - ts)) ≤
          stateRank (computeState cfg (t₂ - ts)) := by
  have hnd₂ := keysNodup_markPhase cfg g now s hnd
  have hbase : alookup (markPhase cfg g now s) n = some ts2 := by
    rw [trackers_collectGarbage] at hts2
    exact alookup_of_filter_some hnd₂ hts2
  have hn : n ∈ graphKeys g := by
    by_contra hc
    rw [alookup_markPhase_not_mem cfg g now s hc] at hbase
    exact absurd hbase (by simp)
  rw [alookup_markPhase cfg g now s hnd hn] at hbase
  constructor
  · by_cases hRD : n ∈ reachableFrom g ["/"] ∨ n ∈ s.deletedNodes
    · exfalso
      have hnone : markFun cfg g now s n = none := by
        unfold markFun
        rw [if_pos hRD]
      rw [hnone] at hbase
      exact absurd hbase (by simp)
    · have hmf : markFun cfg g now s n = some (n, ts) := by
        unfold markFun
        rw [if_neg hRD, hts]
        dsimp only
        rw [if_neg (by rw [referencedSinceLastRun_nil g s hrefs]; simp)]
      rw [hmf] at hbase
      have hfin : ts = ts2 := by simpa using hbase
      exact hfin.symm
  · intro t₁ t₂ h
    exact stateRank_computeState_mono cfg (Nat.sub_le_sub_right h ts)

/-- Witness for the amended C4: B keeps timestamp 0 through a run at time
5 with no observed references, and its phase is monotone in time. -/
theorem phase_monotone_witness :
    alookup (collectGarbage ⟨10, 100, 5, false⟩ ⟨[("/", []), ("/B", [])]⟩ 5
        (collectGarbage ⟨10, 100, 5, false⟩ ⟨[("/", []), ("/B", [])]⟩ 0
          initialGCState).state).state.trackers "/B" = some 0 ∧
      ((0 : Nat) = 0 ∧
        ∀ t₁ t₂ : Nat, t₁ ≤ t₂ →
          stateRank (computeState ⟨10, 100, 5, false⟩ (t₁ - 0)) ≤
            stateRank (computeState ⟨10, 100, 5, false⟩ (t₂ - 0))) :=
  ⟨by decide,
    phase_monotone_without_new_references ⟨10, 100, 5, false⟩
      ⟨[("/", []), ("/B", [])]⟩ 5
      (collectGarbage ⟨10, 100, 5, false⟩ ⟨[("/", []), ("/B", [])]⟩ 0
        initialGCState).state "/B" 0 0
      (by decide) (by decide) (by decide) (by decide)⟩

/-- C5: loading persisted GC data into a fresh orchestrator reproduces the
tombstone set, the deleted set and every node's unreferenced timestamp
exactly when the GC schema version matches the current one; when the
version differs, the node table and tombstone set are discarded (no
trackers, empty tombstones) while the deleted set is loaded unchanged. -/
theorem loadBaseState_roundTrip (d : GCSummaryData) (v : Nat)
    (hnd : keysNodup d.gcState) :
    (v = currentGCVersion →
      (loadBaseState (readBaseSnapshotData ⟨d, v⟩)).tombstones = d.tombstones ∧
        (loadBaseState (readBaseSnapshotData ⟨d, v⟩)).deletedNodes =
          d.deletedNodes ∧
        ∀ n, alookup (loadBaseState (readBaseSnapshotData ⟨d, v⟩)).trackers n =
          tableTimestamp d.gcState n) ∧
      (v ≠ currentGCVersion →
        (loadBaseState (readBaseSnapshotData ⟨d, v⟩)).trackers = [] ∧
          (loadBaseState (readBaseSnapshotData ⟨d, v⟩)).tombstones = [] ∧
          (loadBaseState (readBaseSnapshotData ⟨d, v⟩)).deletedNodes =
            d.deletedNodes) := by
  constructor
  · intro hv
    have hread : readBaseSnapshotData ⟨d, v⟩ =
        ⟨some d.gcState, some d.tombstones, some d.deletedNodes⟩ := by
      unfold readBaseSnapshotData
      dsimp only
      rw [if_pos hv]
    rw [hread]
    refine ⟨rfl, rfl, ?_⟩
    intro n
    exact alookup_filterMap_pairs (fun nd => nd.unreferencedTimestampMs)
      d.gcState hnd n
  · intro hv
    have hread : readBaseSnapshotData ⟨d, v⟩ =
        ⟨none, none, some d.deletedNodes⟩ := by
      unfold readBaseSnapshotData
      dsimp only
      rw [if_neg hv]
    rw [hread]
    exact ⟨rfl, rfl, rfl⟩

/-- Witness for C5 on a one-node table at the matching version. -/
theorem loadBaseState_roundTrip_witness :
    keysNodup [("/A", GCNodeData.mk [] (some 5))] ∧
      ((loadBaseState (readBaseSnapshotData
          ⟨⟨[("/A", GCNodeData.mk [] (some 5))], ["/A"], ["/X"]⟩,
            currentGCVersion⟩)).tombstones = ["/A"] ∧
        (loadBaseState (readBaseSnapshotData
          ⟨⟨[("/A", GCNodeData.mk [] (some 5))], ["/A"], ["/X"]⟩,
            currentGCVersion⟩)).deletedNodes = ["/X"] ∧
        ∀ n, alookup (loadBaseState (readBaseSnapshotData
          ⟨⟨[("/A", GCNodeData.mk [] (some 5))], ["/A"], ["/X"]⟩,
            currentGCVersion⟩)).trackers n =
          tableTimestamp [("/A", GCNodeData.mk [] (some 5))] n) :=
  ⟨by unfold keysNodup; decide,
    (loadBaseState_roundTrip
      ⟨[("/A", GCNodeData.mk [] (some 5))], ["/A"], ["/X"]⟩
      currentGCVersion (by unfold keysNodup; decide)).1 rfl⟩

/-- C9: when a run detects, relative to the previous run's graph, outbound
data-store routes that were never reported through
`addedOutboundReference`, it logs a gcUnknownOutboundReferences error for
the source node listing exactly those routes: a route is listed iff it is
a current outbound data-store route of the node that is neither among the
node's previous routes nor among the explicitly reported ones - reported
edges are excluded. -/
theorem unknownRef_event_exact_routes (cfg : GCConfig) (pg g : GCGraph)
    (now : Nat) (s : GCState) (x : NodeId)
    (hpg : s.previousGraph = some pg)
    (hx : x ∈ graphKeys g)
    (hne : missingExplicitRoutes pg g s.newReferences x ≠ []) :
    (UnknownRefEvent.mk x (missingExplicitRoutes pg g s.newReferences x) ∈
        (collectGarbage cfg g now s).state.unknownRefEvents) ∧
      ∀ r, r ∈ missingExplicitRoutes pg g s.newReferences x ↔
        (r ∈ routesOf g x ∧ isDataStoreRoute r = true ∧
          r ∉ routesOf pg x ∧ r ∉ explicitRoutesOf s.newReferences x) := by
  constructor
  · rw [collectGarbage_unknownRefEvents, hpg]
    exact List.mem_append_right _
      (mem_detectUnknownRefs pg g s.newReferences hx hne)
  · intro r
    unfold missingExplicitRoutes
    rw [List.mem_filter]
    constructor
    · rintro ⟨h1, h2⟩
      simp only [Bool.and_eq_true, decide_eq_true_eq] at h2
      exact ⟨h1, h2.1.1, h2.1.2, h2.2⟩
    · rintro ⟨h1, h2, h3, h4⟩
      refine ⟨h1, ?_⟩
      simp [h2, h3, h4]

end FluidGC

namespace FluidGC

/-- Witness for C9 on the scenario-6 graphs: A gained un-notified routes to
B and C (the notified route to D is excluded), and the run logs the
corresponding gcUnknownOutboundReferences event. -/
theorem unknownRef_event_exact_routes_witness :
    missingExplicitRoutes ⟨[("/", ["/A", "/D"]), ("/A", []), ("/D", [])]⟩
        ⟨[("/", ["/A", "/D"]), ("/A", ["/B", "/C", "/A/E", "/D"]),
          ("/D", ["/C"]), ("/B", []), ("/C", []), ("/A/E", ["/A"])]⟩
        (addedOutboundReference
          (collectGarbage ⟨10, 100, 5, true⟩
            ⟨[("/", ["/A", "/D"]), ("/A", []), ("/D", [])]⟩ 1
            initialGCState).state "/A" "/D").newReferences "/A" =
      ["/B", "/C"] ∧
      UnknownRefEvent.mk "/A"
        (missingExplicitRoutes ⟨[("/", ["/A", "/D"]), ("/A", []), ("/D", [])]⟩
          ⟨[("/", ["/A", "/D"]), ("/A", ["/B", "/C", "/A/E", "/D"]),
            ("/D", ["/C"]), ("/B", []), ("/C", []), ("/A/E", ["/A"])]⟩
          (addedOutboundReference
            (collectGarbage ⟨10, 100, 5, true⟩
              ⟨[("/", ["/A", "/D"]), ("/A", []), ("/D", [])]⟩ 1
              initialGCState).state "/A" "/D").newReferences "/A") ∈
        (collectGarbage ⟨10, 100, 5, true⟩
          ⟨[("/", ["/A", "/D"]), ("/A", ["/B", "/C", "/A/E", "/D"]),
            ("/D", ["/C"]), ("/B", []), ("/C", []), ("/A/E", ["/A"])]⟩ 2
          (addedOutboundReference
            (collectGarbage ⟨10, 100, 5, true⟩
              ⟨[("/", ["/A", "/D"]), ("/A", []), ("/D", [])]⟩ 1
              initialGCState).state "/A" "/D")).state.unknownRefEvents :=
  ⟨by decide,
    (unknownRef_event_exact_routes ⟨10, 100, 5, true⟩
      ⟨[("/", ["/A", "/D"]), ("/A", []), ("/D", [])]⟩
      ⟨[("/", ["/A", "/D"]), ("/A", ["/B", "/C", "/A/E", "/D"]),
        ("/D", ["/C"]), ("/B", []), ("/C", []), ("/A/E", ["/A"])]⟩ 2
      (addedOutboundReference
        (collectGarbage ⟨10, 100, 5, true⟩
          ⟨[("/", ["/A", "/D"]), ("/A", []), ("/D", [])]⟩ 1
          initialGCState).state "/A" "/D") "/A"
      (by decide) (by decide) (by decide)).1⟩

end FluidGC
